import Mathlib

/-!
Verification of the AQI-to-Cigarettes conversion core and fuzzy city search,
shallowly embedded from `src/modules/AQICalculator.js`, `src/modules/DataManager.js`,
`src/simple-app.js` and `script.js`. JavaScript numbers are modelled as exact
rationals; `Math.round` is round-half-up toward positive infinity.
-/

namespace AQICig

attribute [local semireducible] Rat.add Rat.mul Rat.sub Rat.inv Rat.ofScientific

/-- JavaScript `Math.round`: rounds half-way cases toward positive infinity. -/
def jsRound (x : ℚ) : ℤ := ⌊x + 1/2⌋

/-- JavaScript `Number.prototype.toFixed(2)`, read back as a rational value. -/
def toFixed2 (x : ℚ) : ℚ := (jsRound (x * 100) : ℚ) / 100

/-- One row of `AQICalculator.aqiBreakpoints.pm25`: a PM2.5 concentration
interval `[min, max]` mapped to the AQI interval `[aqiMin, aqiMax]`. The AQI
endpoints are integers in the source table. -/
structure Breakpoint where
  min : ℚ
  max : ℚ
  aqiMin : ℤ
  aqiMax : ℤ
deriving DecidableEq

/-- The PM2.5 breakpoint table from `AQICalculator.js` lines 5-13. -/
def pm25Breakpoints : List Breakpoint :=
  [ ⟨0, 12, 0, 50⟩,
    ⟨12.1, 35.4, 51, 100⟩,
    ⟨35.5, 55.4, 101, 150⟩,
    ⟨55.5, 150.4, 151, 200⟩,
    ⟨150.5, 250.4, 201, 300⟩,
    ⟨250.5, 350.4, 301, 400⟩,
    ⟨350.5, 500.4, 401, 500⟩ ]

/-- `AQICalculator.linearScale` (lines 214-217):
`Math.round(((value - fromMin) * (toMax - toMin)) / (fromMax - fromMin) + toMin)`,
with the degenerate-interval guard returning `toMin` unrounded. -/
def linearScale (value fromMin fromMax toMin toMax : ℚ) : ℚ :=
  if fromMax = fromMin then toMin
  else (jsRound (((value - fromMin) * (toMax - toMin)) / (fromMax - fromMin) + toMin) : ℚ)

/-- `AQICalculator.calculateAQIFromPM25` (lines 27-38): clamp below 0 and above
500.4, otherwise scan the breakpoint table for the first interval containing
`pm25` and interpolate; fall through to 0 when no interval matches. -/
def calculateAQIFromPM25 (pm25 : ℚ) : ℚ :=
  if pm25 < 0 then 0
  else if pm25 > 500.4 then 500
  else
    match pm25Breakpoints.find? (fun bp => decide (pm25 ≥ bp.min) && decide (pm25 ≤ bp.max)) with
    | some bp => linearScale pm25 bp.min bp.max (bp.aqiMin : ℚ) (bp.aqiMax : ℚ)
    | none => 0

/-- `AQICalculator.calculatePM25FromAQI` (lines 41-52): the inverse scan, with
clamping of `aqi < 0` to 0 and `aqi > 500` to 500.4. -/
def calculatePM25FromAQI (aqi : ℚ) : ℚ :=
  if aqi < 0 then 0
  else if aqi > 500 then 500.4
  else
    match pm25Breakpoints.find? (fun bp => decide (aqi ≥ (bp.aqiMin : ℚ)) && decide (aqi ≤ (bp.aqiMax : ℚ))) with
    | some bp => linearScale aqi (bp.aqiMin : ℚ) (bp.aqiMax : ℚ) bp.min bp.max
    | none => 0

/-- `AQICalculator.calculateCigarettes` (lines 55-59): convert the AQI back to
a PM2.5 concentration, divide by 22 µg/m³ per cigarette, and round to two
decimals with `toFixed(2)`. -/
def calculateCigarettes (aqi : ℚ) : ℚ :=
  toFixed2 (calculatePM25FromAQI aqi / 22)

/-! ## JavaScript number semantics with NaN

The conversion functions are also modelled over the full JavaScript number
domain including `NaN` (which `undefined` coerces to in comparisons and
arithmetic), to settle how non-numeric input is handled: every comparison
involving `NaN` is false, and arithmetic on `NaN` yields `NaN`. -/

/-- A JavaScript number: either `NaN` or an (exact) rational value. -/
inductive JSNum where
  | nan : JSNum
  | num : ℚ → JSNum
deriving DecidableEq

/-- JavaScript `<` on numbers: false whenever either side is `NaN`. -/
def jsLt : JSNum → JSNum → Bool
  | .num a, .num b => decide (a < b)
  | _, _ => false

/-- JavaScript `>` on numbers: false whenever either side is `NaN`. -/
def jsGt : JSNum → JSNum → Bool
  | .num a, .num b => decide (b < a)
  | _, _ => false

/-- JavaScript `>=` on numbers: false whenever either side is `NaN`. -/
def jsGe : JSNum → JSNum → Bool
  | .num a, .num b => decide (b ≤ a)
  | _, _ => false

/-- JavaScript `<=` on numbers: false whenever either side is `NaN`. -/
def jsLe : JSNum → JSNum → Bool
  | .num a, .num b => decide (a ≤ b)
  | _, _ => false

/-- `linearScale` applied to a JavaScript number: arithmetic (and
`Math.round`) on `NaN` produces `NaN`. -/
def jsLinearScale (value : JSNum) (fromMin fromMax toMin toMax : ℚ) : JSNum :=
  match value with
  | .num q => .num (linearScale q fromMin fromMax toMin toMax)
  | .nan => .nan

/-- `AQICalculator.calculateAQIFromPM25` over the JavaScript number domain:
the guards and the breakpoint search use JavaScript comparisons, so a `NaN`
input fails every test and falls through to the final `return 0`. -/
def calculateAQIFromPM25Js (pm25 : JSNum) : JSNum :=
  if jsLt pm25 (.num 0) then .num 0
  else if jsGt pm25 (.num 500.4) then .num 500
  else
    match pm25Breakpoints.find? (fun bp => jsGe pm25 (.num bp.min) && jsLe pm25 (.num bp.max)) with
    | some bp => jsLinearScale pm25 bp.min bp.max (bp.aqiMin : ℚ) (bp.aqiMax : ℚ)
    | none => .num 0

/-- `AQICalculator.calculatePM25FromAQI` over the JavaScript number domain. -/
def calculatePM25FromAQIJs (aqi : JSNum) : JSNum :=
  if jsLt aqi (.num 0) then .num 0
  else if jsGt aqi (.num 500) then .num 500.4
  else
    match pm25Breakpoints.find? (fun bp => jsGe aqi (.num (bp.aqiMin : ℚ)) && jsLe aqi (.num (bp.aqiMax : ℚ))) with
    | some bp => jsLinearScale aqi (bp.aqiMin : ℚ) (bp.aqiMax : ℚ) bp.min bp.max
    | none => .num 0

/-! ## Risk classification -/

/-- The `riskLevel` chain computed by `AQICalculator.assessHealthRisk`
(lines 86-91): an if-else ladder with inclusive upper boundaries. -/
def assessHealthRiskLevel (aqi : ℚ) : String :=
  if aqi ≤ 50 then "good"
  else if aqi ≤ 100 then "moderate"
  else if aqi ≤ 150 then "unhealthy"
  else if aqi ≤ 200 then "very-unhealthy"
  else if aqi ≤ 300 then "hazardous"
  else "severe"

/-- The `severity` classifier of the legacy `script.js` (lines 110-116),
which adds an explicit `extreme` overflow class above 500 that is still
passed to `showResult` for rendering. -/
def severityOf (aqi : ℚ) : String :=
  if aqi ≤ 50 then "good"
  else if aqi ≤ 100 then "moderate"
  else if aqi ≤ 150 then "unhealthy"
  else if aqi ≤ 200 then "very-unhealthy"
  else if aqi ≤ 300 then "hazardous"
  else if aqi ≤ 500 then "severe"
  else "extreme"

/-- One entry of the `categories` table of `AQICalculator.getAQICategory`
(lines 146-153). -/
structure AQICategory where
  min : ℚ
  max : ℚ
  color : String
  description : String
deriving DecidableEq

def categoryGood : AQICategory := ⟨0, 50, "#00e400", "Good"⟩
def categoryModerate : AQICategory := ⟨51, 100, "#ffff00", "Moderate"⟩
def categoryUnhealthy : AQICategory := ⟨101, 150, "#ff7e00", "Unhealthy for Sensitive Groups"⟩
def categoryVeryUnhealthy : AQICategory := ⟨151, 200, "#ff0000", "Very Unhealthy"⟩
def categoryHazardous : AQICategory := ⟨201, 300, "#8f3f97", "Hazardous"⟩
def categorySevere : AQICategory := ⟨301, 500, "#7e0023", "Very Hazardous"⟩

/-- The `categories` table of `getAQICategory`, in object-literal insertion
order (the order `Object.entries` iterates). -/
def aqiCategories : List AQICategory :=
  [categoryGood, categoryModerate, categoryUnhealthy,
   categoryVeryUnhealthy, categoryHazardous, categorySevere]

/-- `AQICalculator.getAQICategory` (lines 145-162): scan the category table
for the first band containing `aqi`; values outside every band (in
particular everything above 500) fall back to the `severe` category, so the
function is total and always yields a renderable category. -/
def getAQICategory (aqi : ℚ) : AQICategory :=
  match aqiCategories.find? (fun c => decide (aqi ≥ c.min) && decide (aqi ≤ c.max)) with
  | some c => c
  | none => categorySevere

/-! ## JavaScript string primitives

Strings are modelled as lists of characters. `toLowerCase` is modelled on
the ASCII range (city names and queries in the source are ASCII);
whitespace is the ASCII whitespace set. -/

/-- Strings as character lists. -/
abbrev Str := List Char

/-- ASCII lower-casing of one character, as JavaScript `toLowerCase` acts on
the ASCII range. -/
def jsToLowerChar (c : Char) : Char :=
  if 'A' ≤ c ∧ c ≤ 'Z' then Char.ofNat (c.toNat + 32) else c

/-- JavaScript `String.prototype.toLowerCase` on ASCII strings. -/
def jsToLower (s : Str) : Str := s.map jsToLowerChar

/-- ASCII whitespace, the characters matched by `\s` that occur here. -/
def isWs (c : Char) : Bool := c = ' ' || c = '\t' || c = '\n' || c = '\r'

/-- Whitespace or comma: the separator class `[\s,]` used to split city
names into words. -/
def isWsComma (c : Char) : Bool := isWs c || c = ','

/-- JavaScript `String.prototype.trim`: strip whitespace from both ends. -/
def jsTrim (s : Str) : Str :=
  ((s.dropWhile isWs).reverse.dropWhile isWs).reverse

/-- Collects the maximal nonempty runs of non-separator characters of a
string, left to right; the accumulator holds the current run reversed. -/
def sepRuns (isSep : Char → Bool) : Str → Str → List Str
  | [], acc => if acc = [] then [] else [acc.reverse]
  | c :: rest, acc =>
    if isSep c then
      if acc = [] then sepRuns isSep rest []
      else acc.reverse :: sepRuns isSep rest []
    else sepRuns isSep rest (c :: acc)

/-- JavaScript `String.prototype.split` against a one-or-more separator
regular expression such as `/\s+/` or `/[\s,]+/`: the maximal non-separator
runs, with an empty token added in front when the string starts with a
separator and at the back when it ends with one; the empty string splits to
`[""]`. -/
def jsSplit (isSep : Char → Bool) (s : Str) : List Str :=
  match s with
  | [] => [[]]
  | c :: _ =>
    (if isSep c then [([] : Str)] else []) ++ sepRuns isSep s [] ++
      (if isSep (s.getLastD c) then [([] : Str)] else [])

/-- The cost of one substitution step in the Levenshtein recurrence. -/
def levCost (a b : Char) : ℕ := if a = b then 0 else 1

/-- One sweep of the Levenshtein dynamic-programming matrix of
`SmartSearch.calculateSimilarity` (lines 506-515): given the character `a`
of the current row, the remaining characters of the column string, the cell
just computed to the left, and the tail of the previous row starting at the
diagonal cell, produce the rest of the current row. -/
def levStep (a : Char) : Str → ℕ → List ℕ → List ℕ
  | [], _, _ => []
  | _ :: _, _, [] => []
  | _ :: _, _, [_] => []
  | b :: bs, left, pDiag :: pUp :: ps =>
    let cur := min (left + 1) (min (pUp + 1) (pDiag + levCost a b))
    cur :: levStep a bs cur (pUp :: ps)

/-- One full row of the Levenshtein matrix from the previous row. -/
def levRow (a : Char) (t : Str) (prev : List ℕ) : List ℕ :=
  match prev with
  | [] => []
  | p0 :: _ => (p0 + 1) :: levStep a t (p0 + 1) prev

/-- The Levenshtein edit distance as computed by the row-by-row matrix fill
of `calculateSimilarity` (lines 501-517): row 0 is `0..n`, each further row
is produced by `levRow`, and the distance is the last cell of the last row. -/
def levenshtein (s t : Str) : ℕ :=
  (s.foldl (fun prev a => levRow a t prev) (List.range (t.length + 1))).getLastD 0

/-- `SmartSearch.calculateSimilarity` (lines 492-529): 1 for equal strings,
otherwise `1 - distance / maxLength` over the shorter/longer pair, boosted
by 0.2 (capped at 1) when the shorter string is a substring of the longer. -/
def calculateSimilarity (str1 str2 : Str) : ℚ :=
  if str1 = str2 then 1
  else
    let longer := if str1.length > str2.length then str1 else str2
    let shorter := if str1.length > str2.length then str2 else str1
    if longer.length = 0 then 1
    else
      let distance : ℚ := (levenshtein shorter longer : ℚ)
      let maxLength : ℚ := (max str1.length str2.length : ℚ)
      let similarity := 1 - distance / maxLength
      if shorter <:+: longer then min (similarity + 0.2) 1 else similarity

/-! ## Fuzzy city search (`SmartSearch.fuzzySearch`, DataManager.js 405-490)

The JavaScript `Map` keyed by city index is modelled as a list of entries
that carry the index; `Map` iteration order is insertion order, so the
pre-sort entry list is the prefix matches (ascending index) followed by the
fuzzy matches (ascending index), or the word matches alone when the first
two passes produced nothing. `Array.prototype.sort` (stable per the
language standard) is modelled as a stable insertion sort over the
comparator's "does not sort strictly later" relation. -/

/-- A city candidate as consumed by the search: `name`, optional
`displayName`, `country`. -/
structure City where
  name : Str
  displayName : Option Str
  country : Str
deriving DecidableEq

/-- `city.displayName || city.name`: the display name, falling back to the
name when `displayName` is absent or empty (the empty string is falsy). -/
def cityDisplay (c : City) : Str :=
  match c.displayName with
  | some s => if s = [] then c.name else s
  | none => c.name

/-- The `matchType` tag of a search result; `pfx` stands for the source
string `'prefix'`, the other two for `'fuzzy'` and `'word'`. -/
inductive MatchType where
  | pfx : MatchType
  | fuzzy : MatchType
  | word : MatchType
deriving DecidableEq

/-- One entry of the `results` map: the map key (the city's index in the
candidate list) together with the stored `{ city, score, matchType }`. -/
structure SearchEntry where
  index : ℕ
  city : City
  score : ℚ
  matchType : MatchType
deriving DecidableEq

/-- The similarity threshold, the default value of the `threshold`
parameter of `fuzzySearch`. -/
def fuzzyThreshold : ℚ := 0.6

/-- Pass 1 (lines 412-421): every city whose lower-cased display name
starts with the processed query scores 1.0 with matchType `prefix`. -/
def prefixPass (ql : Str) (cities : List City) : List SearchEntry :=
  cities.enum.filterMap (fun ic =>
    let cityName := jsToLower (cityDisplay ic.2)
    if ql.isPrefixOf cityName then some ⟨ic.1, ic.2, 1, .pfx⟩ else none)

/-- Pass 2 (lines 424-437): cities not already matched (i.e. not prefix
matches) whose similarity to the query reaches the threshold, with
matchType `fuzzy`. -/
def fuzzyPass (ql : Str) (th : ℚ) (cities : List City) : List SearchEntry :=
  cities.enum.filterMap (fun ic =>
    let cityName := jsToLower (cityDisplay ic.2)
    if ql.isPrefixOf cityName then none
    else
      let score := calculateSimilarity ql cityName
      if th ≤ score then some ⟨ic.1, ic.2, score, .fuzzy⟩ else none)

/-- The doubly nested word loop (lines 446-452): the number of
(query word, city word) pairs whose similarity exceeds 0.8. -/
def wordMatchCount (queryWords cityWords : List Str) : ℕ :=
  (queryWords.map (fun qw =>
    cityWords.countP (fun cw => decide (0.8 < calculateSimilarity qw cw)))).sum

/-- Pass 3 (lines 440-463): word-based matches, scored as the number of
matching word pairs divided by the number of query words. -/
def wordPass (ql : Str) (cities : List City) : List SearchEntry :=
  let queryWords := jsSplit isWs ql
  cities.enum.filterMap (fun ic =>
    let cityWords := jsSplit isWsComma (jsToLower (cityDisplay ic.2))
    let wm := wordMatchCount queryWords cityWords
    if 0 < wm then some ⟨ic.1, ic.2, (wm : ℚ) / (queryWords.length : ℚ), .word⟩ else none)

/-- The `typePriority` table of the sort comparator (line 474). -/
def typePriority : MatchType → ℕ
  | .pfx => 3
  | .fuzzy => 2
  | .word => 1

/-- The fixed well-known-city list of `getPopularCities` (lines 571-594),
restricted to the fields the popularity lookup reads. -/
def popularCities : List City :=
  [ ⟨"London".toList, none, "GB".toList⟩,
    ⟨"New York".toList, none, "US".toList⟩,
    ⟨"Tokyo".toList, none, "JP".toList⟩,
    ⟨"Paris".toList, none, "FR".toList⟩,
    ⟨"Sydney".toList, none, "AU".toList⟩,
    ⟨"Berlin".toList, none, "DE".toList⟩,
    ⟨"Singapore".toList, none, "SG".toList⟩,
    ⟨"Mumbai".toList, none, "IN".toList⟩,
    ⟨"Beijing".toList, none, "CN".toList⟩,
    ⟨"Los Angeles".toList, none, "US".toList⟩,
    ⟨"Chicago".toList, none, "US".toList⟩,
    ⟨"Toronto".toList, none, "CA".toList⟩,
    ⟨"Amsterdam".toList, none, "NL".toList⟩,
    ⟨"Barcelona".toList, none, "ES".toList⟩,
    ⟨"Rome".toList, none, "IT".toList⟩,
    ⟨"Vienna".toList, none, "AT".toList⟩,
    ⟨"Prague".toList, none, "CZ".toList⟩,
    ⟨"Bangkok".toList, none, "TH".toList⟩,
    ⟨"Istanbul".toList, none, "TR".toList⟩,
    ⟨"Moscow".toList, none, "RU".toList⟩ ]

/-- The `searchHistory` frequency map, as a total count function (absent
keys read as 0 through `|| 0`). -/
abbrev HistMap := Str → ℕ

/-- The key `` `${city.name}_${city.country}` `` lower-cased, under which a
city's search frequency is recorded. -/
def historyKey (c : City) : Str := jsToLower (c.name ++ [ '_' ] ++ c.country)

/-- `SmartSearch.getCityPopularity` (lines 531-545): the position-based rank
in the popular-city list when present (earlier entries rank higher),
otherwise the accumulated local search-frequency count. -/
def getCityPopularity (hist : HistMap) (c : City) : ℕ :=
  match popularCities.findIdx? (fun pc =>
      decide (jsToLower pc.name = jsToLower c.name) &&
      decide (jsToLower pc.country = jsToLower c.country)) with
  | some i => popularCities.length - i
  | none => hist (historyKey c)

/-- The sort comparator (lines 467-487): score descending when scores
differ by more than 0.01, then matchType priority descending, then
popularity descending; negative means `a` sorts before `b`. -/
def searchCompare (hist : HistMap) (a b : SearchEntry) : ℚ :=
  if 0.01 < |a.score - b.score| then b.score - a.score
  else
    let aP := typePriority a.matchType
    let bP := typePriority b.matchType
    if aP ≠ bP then (bP : ℚ) - (aP : ℚ)
    else (getCityPopularity hist b.city : ℚ) - (getCityPopularity hist a.city : ℚ)

/-- The combined pre-sort entry list: prefix matches, then fuzzy matches
(both in candidate order, as a JavaScript `Map` iterates in insertion
order), with the word pass only contributing when the first two passes
matched nothing. -/
def searchEntries (ql : Str) (cities : List City) : List SearchEntry :=
  let base := prefixPass ql cities ++ fuzzyPass ql fuzzyThreshold cities
  base ++ (if base = [] then wordPass ql cities else [])

/-- `SmartSearch.fuzzySearch` (lines 405-490): reject queries shorter than
two characters, lower-case and trim the query, run the three passes, and
stable-sort the collected entries by the comparator. -/
def fuzzySearch (query : Str) (cities : List City) (hist : HistMap) : List SearchEntry :=
  if query.length < 2 then []
  else
    let ql := jsTrim (jsToLower query)
    (searchEntries ql cities).insertionSort (fun a b => searchCompare hist a b ≤ 0)

/-! ## Arithmetic helper lemmas -/

theorem jsRound_mono {a b : ℚ} (h : a ≤ b) : jsRound a ≤ jsRound b :=
  Int.floor_le_floor (by linarith)

theorem jsRound_intCast (n : ℤ) : jsRound (n : ℚ) = n := by
  unfold jsRound
  rw [show ((n : ℚ) + 1/2) = (n : ℚ) + (1/2 : ℚ) from rfl, Int.floor_int_add]
  norm_num

theorem jsRound_le_intCast {x : ℚ} {n : ℤ} (h : x ≤ (n : ℚ)) : jsRound x ≤ n :=
  (jsRound_mono h).trans (le_of_eq (jsRound_intCast n))

theorem intCast_le_jsRound {n : ℤ} {x : ℚ} (h : (n : ℚ) ≤ x) : n ≤ jsRound x :=
  (le_of_eq (jsRound_intCast n).symm).trans (jsRound_mono h)

theorem jsRound_nonneg {x : ℚ} (h : 0 ≤ x) : 0 ≤ jsRound x :=
  intCast_le_jsRound (by exact_mod_cast h)

/-- The linear interpolant used by `linearScale`. -/
def interp (value fromMin fromMax toMin toMax : ℚ) : ℚ :=
  (value - fromMin) * (toMax - toMin) / (fromMax - fromMin) + toMin

theorem linearScale_eq {value fromMin fromMax toMin toMax : ℚ} (h : fromMin < fromMax) :
    linearScale value fromMin fromMax toMin toMax
      = (jsRound (interp value fromMin fromMax toMin toMax) : ℚ) := by
  unfold linearScale interp
  rw [if_neg (ne_of_gt h)]

theorem interp_mono {a b fromMin fromMax toMin toMax : ℚ}
    (hf : fromMin < fromMax) (ht : toMin ≤ toMax) (hab : a ≤ b) :
    interp a fromMin fromMax toMin toMax ≤ interp b fromMin fromMax toMin toMax := by
  unfold interp
  have hden : (0 : ℚ) < fromMax - fromMin := by linarith
  have hnum : (a - fromMin) * (toMax - toMin) ≤ (b - fromMin) * (toMax - toMin) :=
    mul_le_mul_of_nonneg_right (by linarith) (by linarith)
  have := (div_le_div_iff_of_pos_right hden).mpr hnum
  linarith

theorem interp_at_fromMin {fromMin fromMax toMin toMax : ℚ} :
    interp fromMin fromMin fromMax toMin toMax = toMin := by
  unfold interp
  simp

theorem interp_at_fromMax {fromMin fromMax toMin toMax : ℚ} (hf : fromMin < fromMax) :
    interp fromMax fromMin fromMax toMin toMax = toMax := by
  unfold interp
  have hden : fromMax - fromMin ≠ 0 := by linarith
  field_simp

theorem interp_ge {v fromMin fromMax toMin toMax : ℚ}
    (hf : fromMin < fromMax) (ht : toMin ≤ toMax) (hv : fromMin ≤ v) :
    toMin ≤ interp v fromMin fromMax toMin toMax := by
  have := interp_mono hf ht hv (a := fromMin)
  rw [interp_at_fromMin] at this
  exact this

theorem interp_le {v fromMin fromMax toMin toMax : ℚ}
    (hf : fromMin < fromMax) (ht : toMin ≤ toMax) (hv : v ≤ fromMax) :
    interp v fromMin fromMax toMin toMax ≤ toMax := by
  have := interp_mono hf ht hv (b := fromMax)
  rw [interp_at_fromMax hf] at this
  exact this

/-! ## Breakpoint table facts -/

theorem bp_facts : ∀ bp ∈ pm25Breakpoints,
    0 ≤ bp.min ∧ bp.min < bp.max ∧ bp.max ≤ 500.4 ∧
    0 ≤ bp.aqiMin ∧ bp.aqiMin < bp.aqiMax ∧ bp.aqiMax ≤ 500 := by decide

theorem bp_pair : ∀ bp₁ ∈ pm25Breakpoints, ∀ bp₂ ∈ pm25Breakpoints, bp₁ ≠ bp₂ →
    (bp₁.max < bp₂.min ∧ bp₁.aqiMax ≤ bp₂.aqiMin) ∨
    (bp₂.max < bp₁.min ∧ bp₂.aqiMax ≤ bp₁.aqiMin) := by decide

/-- When `x` lies in a breakpoint's concentration interval, the table scan
of `calculateAQIFromPM25` finds exactly that breakpoint. -/
theorem find?_bp_of_mem {x : ℚ} {bp : Breakpoint}
    (hmem : bp ∈ pm25Breakpoints) (h1 : bp.min ≤ x) (h2 : x ≤ bp.max) :
    pm25Breakpoints.find? (fun b => decide (x ≥ b.min) && decide (x ≤ b.max)) = some bp := by
  have hsome : (pm25Breakpoints.find? (fun b => decide (x ≥ b.min) && decide (x ≤ b.max))).isSome := by
    rw [List.find?_isSome]
    exact ⟨bp, hmem, by simp [h1, h2]⟩
  obtain ⟨b, hb⟩ := Option.isSome_iff_exists.mp hsome
  have hbmem := List.mem_of_find?_eq_some hb
  have hbp := List.find?_some hb
  simp only [Bool.and_eq_true, decide_eq_true_eq, ge_iff_le] at hbp
  have hbeq : b = bp := by
    by_contra hne
    rcases bp_pair b hbmem bp hmem hne with ⟨hlt, -⟩ | ⟨hlt, -⟩
    · exact absurd h1 (by linarith [hbp.2])
    · exact absurd hbp.1 (by linarith)
  rw [hb, hbeq]

/-- On a breakpoint's interval, `calculateAQIFromPM25` is the rounded
linear interpolant of that breakpoint. -/
theorem calcAQI_in_bp {x : ℚ} {bp : Breakpoint}
    (hmem : bp ∈ pm25Breakpoints) (h1 : bp.min ≤ x) (h2 : x ≤ bp.max) :
    calculateAQIFromPM25 x
      = (jsRound (interp x bp.min bp.max (bp.aqiMin : ℚ) (bp.aqiMax : ℚ)) : ℚ) := by
  obtain ⟨hmin0, hminmax, hmax5, -, -, -⟩ := bp_facts bp hmem
  have hx0 : ¬ x < 0 := by linarith
  have hx5 : ¬ x > 500.4 := by linarith
  rw [calculateAQIFromPM25, if_neg hx0, if_neg hx5, find?_bp_of_mem hmem h1 h2]
  exact linearScale_eq hminmax

/-! ## C1: range and monotonicity of the forward conversion -/

/-- C1 (counterexample): `calculateAQIFromPM25` is not monotonically
non-decreasing on all of [0, 500.4]. The concentration 12.05 lies in the
gap (12.0, 12.1) between the first two breakpoint intervals, where the
table scan finds nothing and the function falls through to 0, while the
smaller input 12.0 maps to 50. -/
theorem calculateAQIFromPM25_monotone_counterexample :
    0 ≤ (12 : ℚ) ∧ (12 : ℚ) ≤ 12.05 ∧ (12.05 : ℚ) ≤ 500.4 ∧
    calculateAQIFromPM25 12 = 50 ∧ calculateAQIFromPM25 12.05 = 0 ∧
    ¬ calculateAQIFromPM25 12 ≤ calculateAQIFromPM25 12.05 := by decide

/-- C1 (amended): for every `pm25` in [0, 500.4] the result is an integer
in [0, 500]; and the function is monotonically non-decreasing on the union
of the breakpoint intervals, that is, everywhere in [0, 500.4] except the
six inter-breakpoint gaps such as (12.0, 12.1), where it drops to 0. -/
theorem calculateAQIFromPM25_range_and_mono :
    (∀ pm25 : ℚ, 0 ≤ pm25 → pm25 ≤ 500.4 →
      ∃ n : ℤ, calculateAQIFromPM25 pm25 = (n : ℚ) ∧ 0 ≤ n ∧ n ≤ 500) ∧
    (∀ a b : ℚ, (∃ bp ∈ pm25Breakpoints, bp.min ≤ a ∧ a ≤ bp.max) →
      (∃ bp ∈ pm25Breakpoints, bp.min ≤ b ∧ b ≤ bp.max) → a ≤ b →
      calculateAQIFromPM25 a ≤ calculateAQIFromPM25 b) := by
  constructor
  · intro pm25 h0 h5
    rw [calculateAQIFromPM25, if_neg (not_lt.mpr h0), if_neg (not_lt.mpr h5)]
    rcases hcase : List.find? (fun bp => decide (bp.min ≤ pm25) && decide (pm25 ≤ bp.max)) pm25Breakpoints with - | bp
    · rw [hcase]
      exact ⟨0, by norm_num⟩
    · rw [hcase]
      have hbmem := List.mem_of_find?_eq_some hcase
      have hbp := List.find?_some hcase
      simp only [Bool.and_eq_true, decide_eq_true_eq, ge_iff_le] at hbp
      obtain ⟨-, hminmax, -, ha0, haa, ha5⟩ := bp_facts bp hbmem
      refine ⟨jsRound (interp pm25 bp.min bp.max (bp.aqiMin : ℚ) (bp.aqiMax : ℚ)), linearScale_eq hminmax, ?_, ?_⟩
      · exact le_trans ha0 (intCast_le_jsRound (interp_ge hminmax (by exact_mod_cast le_of_lt haa) hbp.1))
      · exact le_trans (jsRound_le_intCast (interp_le hminmax (by exact_mod_cast le_of_lt haa) hbp.2)) ha5
  · rintro a b ⟨bpa, hmema, ha1, ha2⟩ ⟨bpb, hmemb, hb1, hb2⟩ hab
    obtain ⟨-, hma, -, -, haa, -⟩ := bp_facts bpa hmema
    obtain ⟨-, hmb, -, -, hab2, -⟩ := bp_facts bpb hmemb
    rw [calcAQI_in_bp hmema ha1 ha2, calcAQI_in_bp hmemb hb1 hb2]
    by_cases heq : bpa = bpb
    · subst heq
      exact_mod_cast jsRound_mono (interp_mono hma (by exact_mod_cast le_of_lt haa) hab)
    · rcases bp_pair bpa hmema bpb hmemb heq with ⟨hlt, hle⟩ | ⟨hlt, -⟩
      · have h1 : jsRound (interp a bpa.min bpa.max (bpa.aqiMin : ℚ) (bpa.aqiMax : ℚ)) ≤ bpa.aqiMax :=
          jsRound_le_intCast (interp_le hma (by exact_mod_cast le_of_lt haa) ha2)
        have h2 : bpb.aqiMin ≤ jsRound (interp b bpb.min bpb.max (bpb.aqiMin : ℚ) (bpb.aqiMax : ℚ)) :=
          intCast_le_jsRound (interp_ge hmb (by exact_mod_cast le_of_lt hab2) hb1)
        have : jsRound (interp a bpa.min bpa.max (bpa.aqiMin : ℚ) (bpa.aqiMax : ℚ))
            ≤ jsRound (interp b bpb.min bpb.max (bpb.aqiMin : ℚ) (bpb.aqiMax : ℚ)) :=
          le_trans h1 (le_trans hle h2)
        exact_mod_cast this
      · exact absurd hab (by push_neg; linarith)

/-- C1 (witness): the amended statement instantiated at concrete inputs:
10 and 13 both lie in breakpoint intervals, and the range part at 100. -/
theorem calculateAQIFromPM25_range_and_mono_witness :
    (∃ n : ℤ, calculateAQIFromPM25 100 = (n : ℚ) ∧ 0 ≤ n ∧ n ≤ 500) ∧
    calculateAQIFromPM25 10 ≤ calculateAQIFromPM25 13 :=
  ⟨calculateAQIFromPM25_range_and_mono.1 100 (by norm_num) (by norm_num),
   calculateAQIFromPM25_range_and_mono.2 10 13
     ⟨⟨0, 12, 0, 50⟩, by decide, by norm_num, by norm_num⟩
     ⟨⟨12.1, 35.4, 51, 100⟩, by decide, by norm_num, by norm_num⟩
     (by norm_num)⟩

/-! ## C9: boundary exactness -/

/-- C9 (confirmed): the forward conversion is exact at the upper
concentration boundaries of the first four breakpoints. -/
theorem calculateAQIFromPM25_boundaries :
    calculateAQIFromPM25 12 = 50 ∧ calculateAQIFromPM25 35.4 = 100 ∧
    calculateAQIFromPM25 55.4 = 150 ∧ calculateAQIFromPM25 150.4 = 200 := by decide

/-! ## C2: the round trip through the inverse conversion -/

/-- C2 (counterexample): the round trip is off by 2 at AQI 2. The inverse
conversion rounds the concentration to a whole number (`Math.round` inside
`linearScale`), so AQI 2 maps to `round(0.48) = 0` µg/m³, which maps back
to AQI 0. -/
theorem roundTrip_counterexample :
    calculatePM25FromAQI 2 = 0 ∧
    calculateAQIFromPM25 (calculatePM25FromAQI 2) = 0 ∧
    ¬ |calculateAQIFromPM25 (calculatePM25FromAQI 2) - 2| ≤ 1 := by decide

set_option maxRecDepth 40000 in
theorem roundTrip_le_two_all :
    ((List.range 501).all fun n =>
      decide (|calculateAQIFromPM25 (calculatePM25FromAQI (n : ℚ)) - (n : ℚ)| ≤ 2)) = true := by decide

set_option maxRecDepth 40000 in
theorem roundTrip_le_one_from49_all :
    ((List.range 452).all fun n =>
      decide (|calculateAQIFromPM25 (calculatePM25FromAQI ((n + 49 : ℕ) : ℚ)) - ((n + 49 : ℕ) : ℚ)| ≤ 1)) = true := by decide

/-- C2 (amended): for every integer AQI in [0, 500] the round trip
`pm25ToAQI(aqiToPM25(aqi))` reproduces `aqi` within ±2 (±1 fails below 49
because the inverse conversion rounds concentrations to whole numbers);
within ±1 for every integer AQI in [49, 500]. -/
theorem roundTrip_tolerance : ∀ n : ℕ, n ≤ 500 →
    |calculateAQIFromPM25 (calculatePM25FromAQI (n : ℚ)) - (n : ℚ)| ≤ 2 ∧
    (49 ≤ n → |calculateAQIFromPM25 (calculatePM25FromAQI (n : ℚ)) - (n : ℚ)| ≤ 1) := by
  intro n hn
  constructor
  · have h := List.all_eq_true.mp roundTrip_le_two_all n (List.mem_range.mpr (by omega))
    exact of_decide_eq_true h
  · intro h49
    have h := List.all_eq_true.mp roundTrip_le_one_from49_all (n - 49) (List.mem_range.mpr (by omega))
    have heq : (n - 49) + 49 = n := by omega
    rw [heq] at h
    exact of_decide_eq_true h

/-- C2 (witness): the amended round-trip statement at AQI 137. -/
theorem roundTrip_tolerance_witness :
    |calculateAQIFromPM25 (calculatePM25FromAQI (137 : ℚ)) - (137 : ℚ)| ≤ 2 ∧
    (49 ≤ 137 → |calculateAQIFromPM25 (calculatePM25FromAQI (137 : ℚ)) - (137 : ℚ)| ≤ 1) := by
  have h := roundTrip_tolerance 137 (by norm_num)
  exact ⟨h.1, fun _ => h.2 (by norm_num)⟩

/-! ## C3: the cigarette equivalent -/

theorem calculatePM25FromAQI_nonneg (aqi : ℚ) : 0 ≤ calculatePM25FromAQI aqi := by
  rw [calculatePM25FromAQI]
  split_ifs with h1 h2
  · norm_num
  · norm_num
  · rcases hcase : List.find? (fun bp => decide ((bp.aqiMin : ℚ) ≤ aqi) && decide (aqi ≤ (bp.aqiMax : ℚ))) pm25Breakpoints with - | bp
    · rw [hcase]
    · rw [hcase]
      have hbmem := List.mem_of_find?_eq_some hcase
      have hbp := List.find?_some hcase
      simp only [Bool.and_eq_true, decide_eq_true_eq] at hbp
      obtain ⟨hmin0, hminmax, -, -, haa, -⟩ := bp_facts bp hbmem
      show 0 ≤ linearScale aqi (bp.aqiMin : ℚ) (bp.aqiMax : ℚ) bp.min bp.max
      have hfa : ((bp.aqiMin : ℚ)) < (bp.aqiMax : ℚ) := by exact_mod_cast haa
      rw [linearScale_eq hfa]
      have hge := interp_ge (v := aqi) hfa (le_of_lt hminmax) hbp.1
      have := jsRound_nonneg (le_trans hmin0 hge)
      exact_mod_cast this

/-- C3 (confirmed): `calculateCigarettes` is the inverse-converted PM2.5
concentration divided by 22 and rounded to two decimals; it is never
negative, is 0.00 at AQI 0, and is 0.55 at AQI 50 (AQI 50 converts back to
12 µg/m³ and `12/22` rounds to 0.55). -/
theorem calculateCigarettes_spec :
    (∀ aqi : ℚ, 0 ≤ aqi →
      calculateCigarettes aqi = toFixed2 (calculatePM25FromAQI aqi / 22) ∧
      0 ≤ calculateCigarettes aqi) ∧
    calculateCigarettes 0 = 0 ∧ calculateCigarettes 50 = 0.55 := by
  refine ⟨fun aqi _ => ⟨rfl, ?_⟩, by decide, by decide⟩
  unfold calculateCigarettes toFixed2
  have h1 : 0 ≤ calculatePM25FromAQI aqi := calculatePM25FromAQI_nonneg aqi
  have h2 : (0 : ℚ) ≤ calculatePM25FromAQI aqi / 22 * 100 := by positivity
  have h3 := jsRound_nonneg h2
  have h4 : (0 : ℚ) ≤ (jsRound (calculatePM25FromAQI aqi / 22 * 100) : ℚ) := by exact_mod_cast h3
  positivity

/-- C3 (witness): the cigarette-equivalent statement at AQI 137. -/
theorem calculateCigarettes_spec_witness :
    calculateCigarettes 137 = toFixed2 (calculatePM25FromAQI 137 / 22) ∧
    0 ≤ calculateCigarettes 137 :=
  calculateCigarettes_spec.1 137 (by norm_num)

/-! ## C4: the six risk bands and the overflow category -/

theorem getAQICategory_good {aqi : ℚ} (h0 : 0 ≤ aqi) (h1 : aqi ≤ 50) :
    getAQICategory aqi = categoryGood := by
  rw [getAQICategory, aqiCategories]
  rw [List.find?_cons_of_pos _ (by
    simp only [categoryGood, Bool.and_eq_true, decide_eq_true_eq]
    exact ⟨h0, h1⟩)]

theorem getAQICategory_moderate {aqi : ℚ} (h0 : 51 ≤ aqi) (h1 : aqi ≤ 100) :
    getAQICategory aqi = categoryModerate := by
  rw [getAQICategory, aqiCategories]
  rw [List.find?_cons_of_neg _ (by
    simp only [categoryGood, Bool.and_eq_true, decide_eq_true_eq]
    rintro ⟨-, hc⟩
    linarith)]
  rw [List.find?_cons_of_pos _ (by
    simp only [categoryModerate, Bool.and_eq_true, decide_eq_true_eq]
    exact ⟨h0, h1⟩)]

theorem getAQICategory_unhealthy {aqi : ℚ} (h0 : 101 ≤ aqi) (h1 : aqi ≤ 150) :
    getAQICategory aqi = categoryUnhealthy := by
  rw [getAQICategory, aqiCategories]
  rw [List.find?_cons_of_neg _ (by
    simp only [categoryGood, Bool.and_eq_true, decide_eq_true_eq]
    rintro ⟨-, hc⟩
    linarith)]
  rw [List.find?_cons_of_neg _ (by
    simp only [categoryModerate, Bool.and_eq_true, decide_eq_true_eq]
    rintro ⟨-, hc⟩
    linarith)]
  rw [List.find?_cons_of_pos _ (by
    simp only [categoryUnhealthy, Bool.and_eq_true, decide_eq_true_eq]
    exact ⟨h0, h1⟩)]

theorem getAQICategory_veryUnhealthy {aqi : ℚ} (h0 : 151 ≤ aqi) (h1 : aqi ≤ 200) :
    getAQICategory aqi = categoryVeryUnhealthy := by
  rw [getAQICategory, aqiCategories]
  rw [List.find?_cons_of_neg _ (by
    simp only [categoryGood, Bool.and_eq_true, decide_eq_true_eq]
    rintro ⟨-, hc⟩
    linarith)]
  rw [List.find?_cons_of_neg _ (by
    simp only [categoryModerate, Bool.and_eq_true, decide_eq_true_eq]
    rintro ⟨-, hc⟩
    linarith)]
  rw [List.find?_cons_of_neg _ (by
    simp only [categoryUnhealthy, Bool.and_eq_true, decide_eq_true_eq]
    rintro ⟨-, hc⟩
    linarith)]
  rw [List.find?_cons_of_pos _ (by
    simp only [categoryVeryUnhealthy, Bool.and_eq_true, decide_eq_true_eq]
    exact ⟨h0, h1⟩)]

theorem getAQICategory_hazardous {aqi : ℚ} (h0 : 201 ≤ aqi) (h1 : aqi ≤ 300) :
    getAQICategory aqi = categoryHazardous := by
  rw [getAQICategory, aqiCategories]
  rw [List.find?_cons_of_neg _ (by
    simp only [categoryGood, Bool.and_eq_true, decide_eq_true_eq]
    rintro ⟨-, hc⟩
    linarith)]
  rw [List.find?_cons_of_neg _ (by
    simp only [categoryModerate, Bool.and_eq_true, decide_eq_true_eq]
    rintro ⟨-, hc⟩
    linarith)]
  rw [List.find?_cons_of_neg _ (by
    simp only [categoryUnhealthy, Bool.and_eq_true, decide_eq_true_eq]
    rintro ⟨-, hc⟩
    linarith)]
  rw [List.find?_cons_of_neg _ (by
    simp only [categoryVeryUnhealthy, Bool.and_eq_true, decide_eq_true_eq]
    rintro ⟨-, hc⟩
    linarith)]
  rw [List.find?_cons_of_pos _ (by
    simp only [categoryHazardous, Bool.and_eq_true, decide_eq_true_eq]
    exact ⟨h0, h1⟩)]

theorem getAQICategory_severe {aqi : ℚ} (h0 : 301 ≤ aqi) (h1 : aqi ≤ 500) :
    getAQICategory aqi = categorySevere := by
  rw [getAQICategory, aqiCategories]
  rw [List.find?_cons_of_neg _ (by
    simp only [categoryGood, Bool.and_eq_true, decide_eq_true_eq]
    rintro ⟨-, hc⟩
    linarith)]
  rw [List.find?_cons_of_neg _ (by
    simp only [categoryModerate, Bool.and_eq_true, decide_eq_true_eq]
    rintro ⟨-, hc⟩
    linarith)]
  rw [List.find?_cons_of_neg _ (by
    simp only [categoryUnhealthy, Bool.and_eq_true, decide_eq_true_eq]
    rintro ⟨-, hc⟩
    linarith)]
  rw [List.find?_cons_of_neg _ (by
    simp only [categoryVeryUnhealthy, Bool.and_eq_true, decide_eq_true_eq]
    rintro ⟨-, hc⟩
    linarith)]
  rw [List.find?_cons_of_neg _ (by
    simp only [categoryHazardous, Bool.and_eq_true, decide_eq_true_eq]
    rintro ⟨-, hc⟩
    linarith)]
  rw [List.find?_cons_of_pos _ (by
    simp only [categorySevere, Bool.and_eq_true, decide_eq_true_eq]
    exact ⟨h0, h1⟩)]

/-- Above 500 no band matches and the scan falls through to the `severe`
default, so oversized values are still categorised, not rejected. -/
theorem getAQICategory_overflow {aqi : ℚ} (h0 : 500 < aqi) :
    getAQICategory aqi = categorySevere := by
  rw [getAQICategory, aqiCategories]
  rw [List.find?_cons_of_neg _ (by
    simp only [categoryGood, Bool.and_eq_true, decide_eq_true_eq]
    rintro ⟨-, hc⟩
    linarith)]
  rw [List.find?_cons_of_neg _ (by
    simp only [categoryModerate, Bool.and_eq_true, decide_eq_true_eq]
    rintro ⟨-, hc⟩
    linarith)]
  rw [List.find?_cons_of_neg _ (by
    simp only [categoryUnhealthy, Bool.and_eq_true, decide_eq_true_eq]
    rintro ⟨-, hc⟩
    linarith)]
  rw [List.find?_cons_of_neg _ (by
    simp only [categoryVeryUnhealthy, Bool.and_eq_true, decide_eq_true_eq]
    rintro ⟨-, hc⟩
    linarith)]
  rw [List.find?_cons_of_neg _ (by
    simp only [categoryHazardous, Bool.and_eq_true, decide_eq_true_eq]
    rintro ⟨-, hc⟩
    linarith)]
  rw [List.find?_cons_of_neg _ (by
    simp only [categorySevere, Bool.and_eq_true, decide_eq_true_eq]
    rintro ⟨-, hc⟩
    linarith)]
  rfl

/-- C4 (confirmed): the risk classifiers map AQI values to six fixed bands
with inclusive upper boundaries, with the classifications at 50, 51 and 301
as claimed, and every value above 500 still classifies (the legacy
classifier labels it `extreme`, the category table falls back to the
`severe` category) rather than being rejected. -/
theorem classifyRisk_bands :
    (∀ aqi : ℚ, 0 ≤ aqi → aqi ≤ 50 →
      assessHealthRiskLevel aqi = "good" ∧ severityOf aqi = "good" ∧
      getAQICategory aqi = categoryGood) ∧
    (∀ aqi : ℚ, 51 ≤ aqi → aqi ≤ 100 →
      assessHealthRiskLevel aqi = "moderate" ∧ severityOf aqi = "moderate" ∧
      getAQICategory aqi = categoryModerate) ∧
    (∀ aqi : ℚ, 101 ≤ aqi → aqi ≤ 150 →
      assessHealthRiskLevel aqi = "unhealthy" ∧ severityOf aqi = "unhealthy" ∧
      getAQICategory aqi = categoryUnhealthy) ∧
    (∀ aqi : ℚ, 151 ≤ aqi → aqi ≤ 200 →
      assessHealthRiskLevel aqi = "very-unhealthy" ∧ severityOf aqi = "very-unhealthy" ∧
      getAQICategory aqi = categoryVeryUnhealthy) ∧
    (∀ aqi : ℚ, 201 ≤ aqi → aqi ≤ 300 →
      assessHealthRiskLevel aqi = "hazardous" ∧ severityOf aqi = "hazardous" ∧
      getAQICategory aqi = categoryHazardous) ∧
    (∀ aqi : ℚ, 301 ≤ aqi → aqi ≤ 500 →
      assessHealthRiskLevel aqi = "severe" ∧ severityOf aqi = "severe" ∧
      getAQICategory aqi = categorySevere) ∧
    (∀ aqi : ℚ, 500 < aqi →
      severityOf aqi = "extreme" ∧ getAQICategory aqi = categorySevere) ∧
    assessHealthRiskLevel 50 = "good" ∧ assessHealthRiskLevel 51 = "moderate" ∧
    assessHealthRiskLevel 301 = "severe" := by
  refine ⟨fun aqi h0 h1 => ⟨?_, ?_, getAQICategory_good h0 h1⟩,
          fun aqi h0 h1 => ⟨?_, ?_, getAQICategory_moderate h0 h1⟩,
          fun aqi h0 h1 => ⟨?_, ?_, getAQICategory_unhealthy h0 h1⟩,
          fun aqi h0 h1 => ⟨?_, ?_, getAQICategory_veryUnhealthy h0 h1⟩,
          fun aqi h0 h1 => ⟨?_, ?_, getAQICategory_hazardous h0 h1⟩,
          fun aqi h0 h1 => ⟨?_, ?_, getAQICategory_severe h0 h1⟩,
          fun aqi h0 => ⟨?_, getAQICategory_overflow h0⟩,
          by decide, by decide, by decide⟩ <;>
    first
      | (unfold assessHealthRiskLevel; split_ifs <;> first | rfl | linarith)
      | (unfold severityOf; split_ifs <;> first | rfl | linarith)

/-- C4 (witness): the band statements at 50, 75, 125, 175, 250, 400 and the
overflow at 501. -/
theorem classifyRisk_bands_witness :
    (assessHealthRiskLevel 75 = "moderate" ∧ severityOf 75 = "moderate" ∧
      getAQICategory 75 = categoryModerate) ∧
    (assessHealthRiskLevel 400 = "severe" ∧ severityOf 400 = "severe" ∧
      getAQICategory 400 = categorySevere) ∧
    (severityOf 501 = "extreme" ∧ getAQICategory 501 = categorySevere) :=
  ⟨classifyRisk_bands.2.1 75 (by norm_num) (by norm_num),
   classifyRisk_bands.2.2.2.2.2.1 400 (by norm_num) (by norm_num),
   classifyRisk_bands.2.2.2.2.2.2.1 501 (by norm_num)⟩

/-! ## C5: behaviour on non-numeric and out-of-range input -/

/-- C5 (counterexample): on `NaN` input neither conversion function signals
any error condition; every guard and table comparison is false, so both
fall through and return the plain number 0 — a default numeric result — to
the caller. -/
theorem js_nan_returns_zero :
    calculateAQIFromPM25Js JSNum.nan = JSNum.num 0 ∧
    calculatePM25FromAQIJs JSNum.nan = JSNum.num 0 := by decide

theorem calculateAQIFromPM25Js_num (q : ℚ) :
    calculateAQIFromPM25Js (JSNum.num q) = JSNum.num (calculateAQIFromPM25 q) := by
  rw [calculateAQIFromPM25Js, calculateAQIFromPM25]
  simp only [jsLt, jsGt, jsGe, jsLe, jsLinearScale]
  by_cases h1 : q < 0
  · simp [h1]
  · by_cases h2 : (500.4 : ℚ) < q
    · simp [h1, h2]
    · rcases hcase : List.find? (fun bp => decide (bp.min ≤ q) && decide (q ≤ bp.max)) pm25Breakpoints with - | bp <;>
        rw [hcase] <;> simp [h1, h2]

theorem calculatePM25FromAQIJs_num (q : ℚ) :
    calculatePM25FromAQIJs (JSNum.num q) = JSNum.num (calculatePM25FromAQI q) := by
  rw [calculatePM25FromAQIJs, calculatePM25FromAQI]
  simp only [jsLt, jsGt, jsGe, jsLe, jsLinearScale]
  by_cases h1 : q < 0
  · simp [h1]
  · by_cases h2 : (500 : ℚ) < q
    · simp [h1, h2]
    · rcases hcase : List.find? (fun bp => decide ((bp.aqiMin : ℚ) ≤ q) && decide (q ≤ (bp.aqiMax : ℚ))) pm25Breakpoints with - | bp <;>
        rw [hcase] <;> simp [h1, h2]

/-- C5 (amended): the engine never signals an error: a `NaN` (or
`undefined`) input falls through every comparison and yields the plain
number 0, exactly as the defensive no-match branch does, while numeric
inputs behave as the rational model prescribes, with out-of-range numeric
values clamped (below 0 to AQI 0 / concentration 0, above the table to AQI
500 / concentration 500.4). -/
theorem js_error_handling :
    calculateAQIFromPM25Js JSNum.nan = JSNum.num 0 ∧
    calculatePM25FromAQIJs JSNum.nan = JSNum.num 0 ∧
    (∀ q : ℚ, calculateAQIFromPM25Js (JSNum.num q) = JSNum.num (calculateAQIFromPM25 q)) ∧
    (∀ q : ℚ, calculatePM25FromAQIJs (JSNum.num q) = JSNum.num (calculatePM25FromAQI q)) ∧
    (∀ q : ℚ, q < 0 → calculateAQIFromPM25 q = 0) ∧
    (∀ q : ℚ, 500.4 < q → calculateAQIFromPM25 q = 500) ∧
    (∀ q : ℚ, q < 0 → calculatePM25FromAQI q = 0) ∧
    (∀ q : ℚ, 500 < q → calculatePM25FromAQI q = 500.4) := by
  refine ⟨js_nan_returns_zero.1, js_nan_returns_zero.2,
    calculateAQIFromPM25Js_num, calculatePM25FromAQIJs_num, ?_, ?_, ?_, ?_⟩
  · intro q h
    rw [calculateAQIFromPM25, if_pos h]
  · intro q h
    rw [calculateAQIFromPM25, if_neg (by linarith), if_pos h]
  · intro q h
    rw [calculatePM25FromAQI, if_pos h]
  · intro q h
    rw [calculatePM25FromAQI, if_neg (by linarith), if_pos h]

/-- C5 (witness): the amended statement at the concrete out-of-range inputs
-5 and 1000. -/
theorem js_error_handling_witness :
    calculateAQIFromPM25 (-5) = 0 ∧ calculateAQIFromPM25 1000 = 500 ∧
    calculatePM25FromAQI (-5) = 0 ∧ calculatePM25FromAQI 1000 = 500.4 :=
  ⟨js_error_handling.2.2.2.2.1 (-5) (by norm_num),
   js_error_handling.2.2.2.2.2.1 1000 (by norm_num),
   js_error_handling.2.2.2.2.2.2.1 (-5) (by norm_num),
   js_error_handling.2.2.2.2.2.2.2 1000 (by norm_num)⟩


/-! ## Fuzzy-search membership lemmas -/

/-- Candidates whose lower-cased display name starts with the processed
query are collected by the prefix pass with score 1 and matchType
`prefix`. -/
theorem mem_prefixPass {ql : Str} {cities : List City} {i : ℕ} {c : City}
    (h : cities[i]? = some c)
    (hp : ql.isPrefixOf (jsToLower (cityDisplay c)) = true) :
    (⟨i, c, 1, .pfx⟩ : SearchEntry) ∈ prefixPass ql cities := by
  refine List.mem_filterMap.mpr ⟨(i, c), ?_, ?_⟩
  · exact List.mk_mem_enum_iff_getElem?.mpr h
  · simp [hp]

/-- Everything the prefix pass emits: the entry's index addresses its city
in the candidate list, the score is 1, the matchType is `prefix`, and the
prefix test held. -/
theorem of_mem_prefixPass {ql : Str} {cities : List City} {e : SearchEntry}
    (h : e ∈ prefixPass ql cities) :
    cities[e.index]? = some e.city ∧ e.score = 1 ∧ e.matchType = .pfx ∧
    ql.isPrefixOf (jsToLower (cityDisplay e.city)) = true := by
  obtain ⟨⟨i, c⟩, hmem, hf⟩ := List.mem_filterMap.mp h
  have hic := List.mk_mem_enum_iff_getElem?.mp hmem
  by_cases hp : ql.isPrefixOf (jsToLower (cityDisplay c)) = true
  · simp only [hp, if_true] at hf
    injection hf with hf
    subst hf
    exact ⟨hic, rfl, rfl, hp⟩
  · simp [hp] at hf

/-- Candidates that fail the prefix test but reach the similarity
threshold are collected by the fuzzy pass. -/
theorem mem_fuzzyPass {ql : Str} {th : ℚ} {cities : List City} {i : ℕ} {c : City}
    (h : cities[i]? = some c)
    (hp : ql.isPrefixOf (jsToLower (cityDisplay c)) = false)
    (hs : th ≤ calculateSimilarity ql (jsToLower (cityDisplay c))) :
    (⟨i, c, calculateSimilarity ql (jsToLower (cityDisplay c)), .fuzzy⟩ : SearchEntry) ∈ fuzzyPass ql th cities := by
  refine List.mem_filterMap.mpr ⟨(i, c), List.mk_mem_enum_iff_getElem?.mpr h, ?_⟩
  simp [hp, hs]

/-- Everything the fuzzy pass emits: the score is the similarity, it
reaches the threshold, and the candidate was not a prefix match. -/
theorem of_mem_fuzzyPass {ql : Str} {th : ℚ} {cities : List City} {e : SearchEntry}
    (h : e ∈ fuzzyPass ql th cities) :
    cities[e.index]? = some e.city ∧
    e.score = calculateSimilarity ql (jsToLower (cityDisplay e.city)) ∧
    e.matchType = .fuzzy ∧
    ql.isPrefixOf (jsToLower (cityDisplay e.city)) = false ∧
    th ≤ e.score := by
  obtain ⟨⟨i, c⟩, hmem, hf⟩ := List.mem_filterMap.mp h
  have hic := List.mk_mem_enum_iff_getElem?.mp hmem
  by_cases hp : ql.isPrefixOf (jsToLower (cityDisplay c)) = true
  · simp [hp] at hf
  · rw [Bool.not_eq_true] at hp
    by_cases hs : th ≤ calculateSimilarity ql (jsToLower (cityDisplay c))
    · simp only [hp, Bool.false_eq_true, if_false, hs, if_true] at hf
      injection hf with hf
      subst hf
      exact ⟨hic, rfl, rfl, hp, hs⟩
    · simp [hp, hs] at hf

/-- Everything the word pass emits: a positive pair count divided by the
query word count. -/
theorem of_mem_wordPass {ql : Str} {cities : List City} {e : SearchEntry}
    (h : e ∈ wordPass ql cities) :
    cities[e.index]? = some e.city ∧ e.matchType = .word ∧
    (∃ wm : ℕ, 0 < wm ∧
      wm = wordMatchCount (jsSplit isWs ql) (jsSplit isWsComma (jsToLower (cityDisplay e.city))) ∧
      e.score = (wm : ℚ) / ((jsSplit isWs ql).length : ℚ)) := by
  obtain ⟨⟨i, c⟩, hmem, hf⟩ := List.mem_filterMap.mp h
  have hic := List.mk_mem_enum_iff_getElem?.mp hmem
  by_cases hw : 0 < wordMatchCount (jsSplit isWs ql) (jsSplit isWsComma (jsToLower (cityDisplay c)))
  · simp only [hw, if_true] at hf
    injection hf with hf
    subst hf
    exact ⟨hic, rfl, _, hw, rfl, rfl⟩
  · simp [hw] at hf

/-- The sort step only permutes the collected entries. -/
theorem fuzzySearch_perm (query : Str) (cities : List City) (hist : HistMap)
    (hlen : 2 ≤ query.length) :
    (fuzzySearch query cities hist).Perm (searchEntries (jsTrim (jsToLower query)) cities) := by
  rw [fuzzySearch, if_neg (by omega)]
  exact List.perm_insertionSort _ _

theorem mem_fuzzySearch_iff {query : Str} {cities : List City} {hist : HistMap}
    (hlen : 2 ≤ query.length) {e : SearchEntry} :
    e ∈ fuzzySearch query cities hist ↔ e ∈ searchEntries (jsTrim (jsToLower query)) cities :=
  (fuzzySearch_perm query cities hist hlen).mem_iff

theorem mem_searchEntries_cases {ql : Str} {cities : List City} {e : SearchEntry}
    (h : e ∈ searchEntries ql cities) :
    e ∈ prefixPass ql cities ∨ e ∈ fuzzyPass ql fuzzyThreshold cities ∨ e ∈ wordPass ql cities := by
  rw [searchEntries] at h
  rcases List.mem_append.mp h with h1 | h2
  · rcases List.mem_append.mp h1 with ha | hb
    · exact Or.inl ha
    · exact Or.inr (Or.inl hb)
  · split at h2
    · exact Or.inr (Or.inr h2)
    · simp at h2

theorem base_mem_searchEntries {ql : Str} {cities : List City} {e : SearchEntry}
    (h : e ∈ prefixPass ql cities ∨ e ∈ fuzzyPass ql fuzzyThreshold cities) :
    e ∈ searchEntries ql cities := by
  rw [searchEntries]
  exact List.mem_append.mpr (Or.inl (List.mem_append.mpr h))

/-- C6 (confirmed): for a query of length at least 2 whose lower-cased form
carries no surrounding whitespace, every candidate whose lower-cased
display name starts with the lower-cased query appears in the result with
score exactly 1.0 and matchType `prefix`; and a candidate that is not a
prefix match appears with matchType `fuzzy` exactly when its similarity to
the query (edit distance normalised as `1 - d/max(len)`, boosted by 0.2
capped at 1.0 for substrings) reaches the 0.6 threshold. -/
theorem fuzzySearch_prefix_and_fuzzy (query : Str) (cities : List City) (hist : HistMap)
    (hlen : 2 ≤ query.length)
    (htrim : jsTrim (jsToLower query) = jsToLower query) :
    (∀ i c, cities[i]? = some c →
      (jsToLower query).isPrefixOf (jsToLower (cityDisplay c)) = true →
      (⟨i, c, 1, .pfx⟩ : SearchEntry) ∈ fuzzySearch query cities hist) ∧
    (∀ i c, cities[i]? = some c →
      (jsToLower query).isPrefixOf (jsToLower (cityDisplay c)) = false →
      ((∃ s, (⟨i, c, s, .fuzzy⟩ : SearchEntry) ∈ fuzzySearch query cities hist) ↔
        fuzzyThreshold ≤ calculateSimilarity (jsToLower query) (jsToLower (cityDisplay c)))) := by
  constructor
  · intro i c hc hp
    rw [mem_fuzzySearch_iff hlen, htrim]
    exact base_mem_searchEntries (Or.inl (mem_prefixPass hc hp))
  · intro i c hc hp
    constructor
    · rintro ⟨s, hs⟩
      rw [mem_fuzzySearch_iff hlen, htrim] at hs
      rcases mem_searchEntries_cases hs with h1 | h2 | h3
      · have := (of_mem_prefixPass h1).2.2.1
        simp at this
      · have h := of_mem_fuzzyPass h2
        simp only at h
        rw [h.2.1] at h
        exact h.2.2.2.2
      · have := (of_mem_wordPass h3).2.1
        simp at this
    · intro hth
      refine ⟨calculateSimilarity (jsToLower query) (jsToLower (cityDisplay c)), ?_⟩
      rw [mem_fuzzySearch_iff hlen, htrim]
      exact base_mem_searchEntries (Or.inr (mem_fuzzyPass hc hp hth))

/-- The similarity score never exceeds 1. -/
theorem calculateSimilarity_le_one (s t : Str) : calculateSimilarity s t ≤ 1 := by
  rw [calculateSimilarity]
  dsimp only
  split_ifs <;>
    first
      | exact le_refl 1
      | exact min_le_right _ _
      | (rename_i hlev
         have hm : (0 : ℚ) ≤ (s.length : ℚ) ⊔ (t.length : ℚ) :=
           le_trans (Nat.cast_nonneg _) (le_max_left _ _)
         have hd : (0 : ℚ) ≤ ((levenshtein t s : ℕ) : ℚ) / ((s.length : ℚ) ⊔ (t.length : ℚ)) :=
           div_nonneg (Nat.cast_nonneg _) hm
         linarith)
      | (rename_i hlev
         have hm : (0 : ℚ) ≤ (s.length : ℚ) ⊔ (t.length : ℚ) :=
           le_trans (Nat.cast_nonneg _) (le_max_left _ _)
         have hd : (0 : ℚ) ≤ ((levenshtein s t : ℕ) : ℚ) / ((s.length : ℚ) ⊔ (t.length : ℚ)) :=
           div_nonneg (Nat.cast_nonneg _) hm
         linarith)

theorem sepRuns_ne_nil_of_acc {p : Char → Bool} :
    ∀ (s acc : Str), acc ≠ [] → sepRuns p s acc ≠ [] := by
  intro s
  induction s with
  | nil =>
    intro acc h
    simp [sepRuns, h]
  | cons c rest ih =>
    intro acc h
    rw [sepRuns]
    by_cases hc : p c
    · simp [hc, h]
    · simp only [hc, Bool.false_eq_true, if_false]
      exact ih (c :: acc) (by simp)

/-- Splitting always yields at least one token. -/
theorem jsSplit_length_pos (p : Char → Bool) (s : Str) : 0 < (jsSplit p s).length := by
  cases s with
  | nil => simp [jsSplit]
  | cons c rest =>
    rw [jsSplit]
    by_cases hc : p c
    · simp [hc]
    · have hne := sepRuns_ne_nil_of_acc (p := p) rest [c] (by simp)
      have : sepRuns p (c :: rest) [] ≠ [] := by
        rw [sepRuns]
        simp only [hc, Bool.false_eq_true, if_false]
        exact hne
      simp only [List.length_append]
      have := List.length_pos.mpr this
      omega

/-- C8 (amended): every result of the search has a score in [0, 1] when
its matchType is `prefix` (exactly 1) or `fuzzy` (between the 0.6 threshold
and 1); word-fallback results have a positive score
`matching-token-pairs / query-token-count`, which can exceed 1 because one
query token may match several candidate tokens. -/
theorem fuzzySearch_score_bounds :
    ∀ (query : Str) (cities : List City) (hist : HistMap),
      ∀ e ∈ fuzzySearch query cities hist,
        (e.matchType = .pfx → e.score = 1) ∧
        (e.matchType = .fuzzy → fuzzyThreshold ≤ e.score ∧ e.score ≤ 1) ∧
        (e.matchType = .word → 0 < e.score) := by
  intro query cities hist e he
  by_cases hlen : query.length < 2
  · rw [fuzzySearch, if_pos hlen] at he
    simp at he
  · rw [mem_fuzzySearch_iff (by omega)] at he
    rcases mem_searchEntries_cases he with h | h | h
    · have p := of_mem_prefixPass h
      refine ⟨fun _ => p.2.1, fun hf => ?_, fun hw => ?_⟩
      · rw [p.2.2.1] at hf
        cases hf
      · rw [p.2.2.1] at hw
        cases hw
    · have p := of_mem_fuzzyPass h
      refine ⟨fun hf => ?_, fun _ => ⟨p.2.2.2.2, ?_⟩, fun hw => ?_⟩
      · rw [p.2.2.1] at hf
        cases hf
      · rw [p.2.1]
        exact calculateSimilarity_le_one _ _
      · rw [p.2.2.1] at hw
        cases hw
    · have p := of_mem_wordPass h
      obtain ⟨-, hmt, wm, hwm, hwmeq, hscore⟩ := p
      refine ⟨fun hf => ?_, fun hf => ?_, fun _ => ?_⟩
      · rw [hmt] at hf
        cases hf
      · rw [hmt] at hf
        cases hf
      · rw [hscore]
        have h1 : (0 : ℚ) < (wm : ℚ) := by exact_mod_cast hwm
        have h2 : (0 : ℚ) < ((jsSplit isWs (jsTrim (jsToLower query))).length : ℚ) := by
          exact_mod_cast jsSplit_length_pos isWs (jsTrim (jsToLower query))
        exact div_pos h1 h2

theorem filterMap_sublist_map {α β : Type} (g : α → β) (f : α → Option β)
    (hf : ∀ a b, f a = some b → b = g a) :
    ∀ l : List α, List.Sublist (l.filterMap f) (l.map g) := by
  intro l
  induction l with
  | nil => simp
  | cons a l ih =>
    rw [List.filterMap_cons, List.map_cons]
    rcases hfa : f a with - | b
    · exact ih.cons _
    · rw [hf a b hfa]
      exact ih.cons₂ _

theorem pass_indices_nodup (f : ℕ × City → Option SearchEntry) (cities : List City)
    (hf : ∀ i c e, f (i, c) = some e → e.index = i) :
    ((cities.enum.filterMap f).map SearchEntry.index).Nodup := by
  rw [List.map_filterMap]
  have hsub : List.Sublist (cities.enum.filterMap fun a => (f a).map SearchEntry.index)
      (cities.enum.map Prod.fst) := by
    apply filterMap_sublist_map
    rintro ⟨i, c⟩ b hb
    rcases hfa : f (i, c) with - | e
    · rw [hfa] at hb
      cases hb
    · rw [hfa] at hb
      injection hb with hb
      rw [← hb, hf i c e hfa]
  have hr : (cities.enum.map Prod.fst).Nodup := by
    rw [List.enum_map_fst]
    exact List.nodup_range _
  exact hsub.nodup hr

theorem prefixPass_indices_nodup (ql : Str) (cities : List City) :
    ((prefixPass ql cities).map SearchEntry.index).Nodup := by
  rw [prefixPass]
  apply pass_indices_nodup
  intro i c e h
  simp only at h
  split_ifs at h <;> cases h <;> rfl

theorem fuzzyPass_indices_nodup (ql : Str) (th : ℚ) (cities : List City) :
    ((fuzzyPass ql th cities).map SearchEntry.index).Nodup := by
  rw [fuzzyPass]
  apply pass_indices_nodup
  intro i c e h
  simp only at h
  split_ifs at h <;> cases h <;> rfl

theorem wordPass_indices_nodup (ql : Str) (cities : List City) :
    ((wordPass ql cities).map SearchEntry.index).Nodup := by
  rw [wordPass]
  apply pass_indices_nodup
  intro i c e h
  simp only at h
  split_ifs at h <;> cases h <;> rfl

theorem searchEntries_eq (ql : Str) (cities : List City) :
    searchEntries ql cities =
      (prefixPass ql cities ++ fuzzyPass ql fuzzyThreshold cities) ++
        (if prefixPass ql cities ++ fuzzyPass ql fuzzyThreshold cities = []
         then wordPass ql cities else []) := rfl

theorem pf_fz_indices_disjoint (ql : Str) (th : ℚ) (cities : List City) :
    ((prefixPass ql cities).map SearchEntry.index).Disjoint
      ((fuzzyPass ql th cities).map SearchEntry.index) := by
  intro i h1 h2
  obtain ⟨e1, he1, hi1⟩ := List.mem_map.mp h1
  obtain ⟨e2, he2, hi2⟩ := List.mem_map.mp h2
  have p1 := of_mem_prefixPass he1
  have p2 := of_mem_fuzzyPass he2
  rw [hi1] at p1
  rw [hi2] at p2
  have hc : e1.city = e2.city := Option.some.inj (p1.1.symm.trans p2.1)
  rw [hc] at p1
  rw [p2.2.2.2.1] at p1
  cases p1.2.2.2

/-- C10 (confirmed): each candidate index appears at most once in the
result list: the prefix pass emits distinct indices, the fuzzy pass skips
prefix-matched indices, and the word pass only runs when the other two
matched nothing. -/
theorem fuzzySearch_indices_nodup :
    ∀ (query : Str) (cities : List City) (hist : HistMap),
      ((fuzzySearch query cities hist).map SearchEntry.index).Nodup := by
  intro query cities hist
  by_cases hlen : query.length < 2
  · rw [fuzzySearch, if_pos hlen]
    simp
  · have hperm := (fuzzySearch_perm query cities hist (by omega)).map SearchEntry.index
    rw [hperm.nodup_iff]
    rw [searchEntries_eq]
    by_cases hbase : prefixPass (jsTrim (jsToLower query)) cities ++
        fuzzyPass (jsTrim (jsToLower query)) fuzzyThreshold cities = []
    · rw [if_pos hbase, hbase, List.nil_append]
      exact wordPass_indices_nodup _ _
    · rw [if_neg hbase, List.append_nil, List.map_append, List.nodup_append]
      exact ⟨prefixPass_indices_nodup _ _, fuzzyPass_indices_nodup _ _ _,
        pf_fz_indices_disjoint _ _ _⟩

/-- A concrete candidate for the witnesses below. -/
def witnessLondon : City := ⟨"London".toList, some "London, GB".toList, "GB".toList⟩

def zeroHist : HistMap := fun _ => 0

/-- C6 (witness): the prefix clause instantiated at the query `lo` against
the candidate `London, GB`. -/
theorem fuzzySearch_prefix_and_fuzzy_witness :
    (⟨0, witnessLondon, 1, .pfx⟩ : SearchEntry) ∈
      fuzzySearch "lo".toList [witnessLondon] zeroHist :=
  (fuzzySearch_prefix_and_fuzzy "lo".toList [witnessLondon] zeroHist (by decide) (by decide)).1
    0 witnessLondon (by decide) (by decide)

def cityAAB : City := ⟨List.replicate 20 'a' ++ List.replicate 5 'b', none, "zz".toList⟩

def cityAAB1 : City := ⟨List.replicate 21 'a' ++ List.replicate 5 'b', none, "zz".toList⟩

def queryA25 : Str := List.replicate 25 'a'

def histAAB : HistMap := fun k => if k = historyKey cityAAB then 5 else 0

set_option maxRecDepth 8000 in
/-- C7 (counterexample): the output is not always sorted by score
descending. The comparator treats scores within 0.01 of each other as
equal: these two fuzzy matches score 4/5 and 21/26 (a gap of 1/130), so the
tie is broken by popularity, which the search-frequency state awards to the
lower-scoring city, and the result list ends up in ascending score order. -/
theorem fuzzySearch_order_counterexample :
    (fuzzySearch queryA25 [cityAAB, cityAAB1] histAAB).map SearchEntry.score = [4/5, 21/26] ∧
    (fuzzySearch queryA25 [cityAAB, cityAAB1] histAAB).map SearchEntry.matchType = [.fuzzy, .fuzzy] ∧
    ((4 : ℚ)/5 < 21/26) := by decide

/-- C7 (amended): the matcher is deterministic -- the same query, candidate
list and frequency state always produce the identical ordered result list
-- and the output is a permutation of the collected matches, ordered by the
sort comparator, which compares by score descending only when the scores
differ by more than 0.01, then by matchType priority, then by popularity. -/
theorem fuzzySearch_deterministic :
    (∀ (query : Str) (cities : List City) (hist : HistMap) (out₁ out₂ : List SearchEntry),
      out₁ = fuzzySearch query cities hist → out₂ = fuzzySearch query cities hist →
      out₁ = out₂) ∧
    (∀ (query : Str) (cities : List City) (hist : HistMap), 2 ≤ query.length →
      (fuzzySearch query cities hist).Perm (searchEntries (jsTrim (jsToLower query)) cities)) :=
  ⟨fun _ _ _ _ _ h1 h2 => h1.trans h2.symm,
   fun query cities hist hlen => fuzzySearch_perm query cities hist hlen⟩

/-- C7 (witness): determinism and the sorted-permutation property at the
query `lo` against `London, GB`. -/
theorem fuzzySearch_deterministic_witness :
    fuzzySearch "lo".toList [witnessLondon] zeroHist =
      fuzzySearch "lo".toList [witnessLondon] zeroHist ∧
    (fuzzySearch "lo".toList [witnessLondon] zeroHist).Perm
      (searchEntries (jsTrim (jsToLower "lo".toList)) [witnessLondon]) :=
  ⟨fuzzySearch_deterministic.1 "lo".toList [witnessLondon] zeroHist _ _ rfl rfl,
   fuzzySearch_deterministic.2 "lo".toList [witnessLondon] zeroHist (by decide)⟩

def cityXYAB : City := ⟨"xy ab ab".toList, none, "zz".toList⟩

/-- C8 (counterexample): a word-pass score exceeding 1. The single query
token `ab` matches both `ab` tokens of the candidate `xy ab ab`, so the
score is 2/1 = 2, outside [0, 1]. -/
theorem fuzzySearch_score_counterexample :
    (fuzzySearch "ab".toList [cityXYAB] zeroHist).map SearchEntry.score = [2] ∧
    (fuzzySearch "ab".toList [cityXYAB] zeroHist).map SearchEntry.matchType = [.word] ∧
    ¬ ((2 : ℚ) ≤ 1) := by decide

/-- C8 (witness): the score bounds at the prefix entry produced by the
query `lo` against `London, GB`. -/
theorem fuzzySearch_score_bounds_witness :
    (((⟨0, witnessLondon, 1, .pfx⟩ : SearchEntry)).matchType = .pfx →
      ((⟨0, witnessLondon, 1, .pfx⟩ : SearchEntry)).score = 1) ∧
    (((⟨0, witnessLondon, 1, .pfx⟩ : SearchEntry)).matchType = .fuzzy →
      fuzzyThreshold ≤ ((⟨0, witnessLondon, 1, .pfx⟩ : SearchEntry)).score ∧
      ((⟨0, witnessLondon, 1, .pfx⟩ : SearchEntry)).score ≤ 1) ∧
    (((⟨0, witnessLondon, 1, .pfx⟩ : SearchEntry)).matchType = .word →
      0 < ((⟨0, witnessLondon, 1, .pfx⟩ : SearchEntry)).score) :=
  fuzzySearch_score_bounds "lo".toList [witnessLondon] zeroHist
    ⟨0, witnessLondon, 1, .pfx⟩ (by decide)

end AQICig
